/-
  Verification of the event-loop core of CxxFiber (src/src/eco_ae.c).

  Shallow embedding notes.
  * The file `eco_ae.h` and the backend adapters (`eco_ae_epoll.c`,
    `eco_ae_select.c`, ...) are not part of the sources; per the spec the
    backend is an out-of-scope pluggable capability.  Backend calls
    (`aeApiAddEvent`, `aeApiUpdEvent`, `aeApiPoll`, ...) are therefore
    modelled as oracles: their success/failure and the list of fired
    events they report are explicit parameters of the embedded functions.
  * Modelled from the spec (constants of the missing header `eco_ae.h`):
    the readiness mask is a bit set with `ECO_POLL_NONE = 0` and
    `ECO_POLL_READABLE`, `ECO_POLL_WRITABLE` distinct single bits
    (spec §3: "interestMask: bitwise OR of NONE/READABLE/WRITABLE");
    `ECO_POLL_DELETED_EVENT_ID` is a reserved sentinel id distinct from
    every issued id (spec §3: ids come from a monotone counter starting
    at 0, "a reserved sentinel value marks pending deletion"), modelled
    as -1; `ECO_POLL_NOMORE` is the "no more" return of a timer callback,
    modelled as -1.  Status results `ES_SUCCESS`/`ES_FAILURE` are
    modelled as `Bool` (`true` = success).
  * C machine integers that only hold small non-negative bit sets and
    indices are modelled as `Nat`; time values, timer ids and `maxfd`
    (which uses the sentinel -1) are modelled as `Int`.  C `/` and `%`
    on signed operands truncate toward zero, so they are translated as
    `Int.tdiv` / `Int.tmod` (Lean's T-division pair).
  * Callback pointers are modelled as opaque tokens (`Nat`); pointer
    equality becomes token equality.  The behaviour of a callback is
    supplied by an environment: a file callback may mutate the whole
    loop state (re-entrancy), a timer callback returns its reschedule
    value.  The wall clock (`time(NULL)` and `aeGetTime`) is passed in
    explicitly and assumed constant within one sweep/dispatch pass.
  * `malloc` results are oracles too (`allocOk : Bool`) where a claim
    depends on the failure path.
-/
import Mathlib

set_option linter.unusedVariables false

/-! ## Constants (modelled from the spec; header absent from the sources) -/

def ECO_POLL_NONE : Nat := 0
def ECO_POLL_READABLE : Nat := 1
def ECO_POLL_WRITABLE : Nat := 2

def ECO_POLL_DELETED_EVENT_ID : Int := -1
def ECO_POLL_NOMORE : Int := -1

/-! ## Data model -/

/-- One slot of the descriptor table (`coFileEvent`).  `rfileProc` /
`wfileProc` are callback tokens (`none` models the NULL pointer; the
slots of a fresh table are uninitialised in C and never read before
being assigned, we initialise them to `none`). -/
structure coFileEvent where
  mask : Nat
  rfileProc : Option Nat
  wfileProc : Option Nat
  clientData : Nat
deriving Repr, DecidableEq

/-- One timer node (`coTimeEvent`).  The singly-linked list becomes a
`List`; `next` pointers become list order (head = `timeEventHead`). -/
structure coTimeEvent where
  id : Int
  when_sec : Int
  when_ms : Int
  timeProc : Nat
  finalizerProc : Option Nat
  clientData : Nat
deriving Repr, DecidableEq

/-- The event loop (`co_poll_t`).  `setsize` is `events.length`; the
`fired` scratch buffer is not state (the backend's report is passed to
`eco_poll_process_events` directly); the backend handle is out of scope. -/
structure co_poll_t where
  events : List coFileEvent
  maxfd : Int
  timeEventHead : List coTimeEvent
  timeEventNextId : Int
  lastTime : Int
deriving Repr, DecidableEq

/-- The value of an uninitialised / out-of-range table slot. -/
def emptyFileEvent : coFileEvent := ⟨ECO_POLL_NONE, none, none, 0⟩

/-- Read `poll->events[fd]`. -/
def getSlot (s : co_poll_t) (fd : Nat) : coFileEvent :=
  s.events.getD fd emptyFileEvent

/-- `a & ~b` on bit sets: removes the bits of `b` from `a`.
(`x - (x &&& b)` equals `x &&& ~b` because `x &&& b` is a sub-mask of `x`.) -/
def landNot (a b : Nat) : Nat := a - (a &&& b)

/-! ## Loop creation (`eco_poll_create`, success path)

The allocation-failure path frees the partial allocations and returns
NULL without producing a loop; claims start from a successfully created
loop.  `now` is the `time(NULL)` observed at creation. -/

def eco_poll_create (setsize : Nat) (now : Int) : co_poll_t :=
  { events := List.replicate setsize { emptyFileEvent with mask := ECO_POLL_NONE }
    maxfd := -1
    timeEventHead := []
    timeEventNextId := 0
    lastTime := now }

/-! ## File-event registration -/

/-- `eco_poll_file_event_create`.  `apiOk` is the oracle result of the
backend `aeApiAddEvent` call.  Returns the new state and the status
(`true` = `ES_SUCCESS`). -/
def eco_poll_file_event_create (s : co_poll_t) (fd : Nat) (mask : Nat)
    (proc : Option Nat) (clientData : Nat) (apiOk : Bool) :
    co_poll_t × Bool :=
  if fd ≥ s.events.length then (s, false)
  else if !apiOk then (s, false)
  else
    let fe := getSlot s fd
    let fe := { fe with mask := fe.mask ||| mask }
    let fe := if mask &&& ECO_POLL_READABLE ≠ 0 then { fe with rfileProc := proc } else fe
    let fe := if mask &&& ECO_POLL_WRITABLE ≠ 0 then { fe with wfileProc := proc } else fe
    let fe := { fe with clientData := clientData }
    let s := { s with events := s.events.set fd fe }
    let s := if (fd : Int) > s.maxfd then { s with maxfd := (fd : Int) } else s
    (s, true)

/-- `eco_poll_file_event_update`.  Identical to creation except that the
backend call is `aeApiUpdEvent` (also an oracle `apiOk` here). -/
def eco_poll_file_event_update (s : co_poll_t) (fd : Nat) (mask : Nat)
    (proc : Option Nat) (clientData : Nat) (apiOk : Bool) :
    co_poll_t × Bool :=
  if fd ≥ s.events.length then (s, false)
  else if !apiOk then (s, false)
  else
    let fe := getSlot s fd
    let fe := { fe with mask := fe.mask ||| mask }
    let fe := if mask &&& ECO_POLL_READABLE ≠ 0 then { fe with rfileProc := proc } else fe
    let fe := if mask &&& ECO_POLL_WRITABLE ≠ 0 then { fe with wfileProc := proc } else fe
    let fe := { fe with clientData := clientData }
    let s := { s with events := s.events.set fd fe }
    let s := if (fd : Int) > s.maxfd then { s with maxfd := (fd : Int) } else s
    (s, true)

/-- The backward scan `for (j = n-1; j >= 0; j--) if (events[j].mask != NONE) break;`
returning the final `j` (the largest index `< n` with a non-NONE mask,
or -1 when there is none). -/
def backScan (evs : List coFileEvent) : Nat → Int
  | 0 => -1
  | j + 1 =>
      if (evs.getD j emptyFileEvent).mask ≠ ECO_POLL_NONE then (j : Int)
      else backScan evs j

/-- `eco_poll_file_event_delete`.  The backend `aeApiDelEvent` call is
made last and its result is ignored by the C code, so it does not appear
in the state. -/
def eco_poll_file_event_delete (s : co_poll_t) (fd : Nat) (mask : Nat) :
    co_poll_t :=
  if fd ≥ s.events.length then s
  else
    let fe := getSlot s fd
    if fe.mask = ECO_POLL_NONE then s
    else
      let fe := { fe with mask := landNot fe.mask mask }
      let s := { s with events := s.events.set fd fe }
      if (fd : Int) = s.maxfd ∧ fe.mask = ECO_POLL_NONE then
        { s with maxfd := backScan s.events fd }
      else s

/-- `eco_poll_get_file_events`. -/
def eco_poll_get_file_events (s : co_poll_t) (fd : Nat) : Nat :=
  if fd ≥ s.events.length then 0 else (getSlot s fd).mask

/-! ## Timer list -/

/-- `aeAddMillisecondsToNow` relative-to-absolute deadline computation,
with the current `aeGetTime` observation passed in as `cur = (sec, ms)`. -/
def aeAddMillisecondsToNow (cur : Int × Int) (milliseconds : Int) : Int × Int :=
  let when_sec := cur.1 + Int.tdiv milliseconds 1000
  let when_ms := cur.2 + Int.tmod milliseconds 1000
  if when_ms ≥ 1000 then (when_sec + 1, when_ms - 1000) else (when_sec, when_ms)

/-- `eco_poll_time_event_create`.  `allocOk` is the oracle result of the
`malloc`; note the C increments `timeEventNextId` before the allocation.
Returns the new state and `some id` on success, `none` on `ES_FAILURE`. -/
def eco_poll_time_event_create (s : co_poll_t) (milliseconds : Int)
    (proc : Nat) (clientData : Nat) (finalizerProc : Option Nat)
    (cur : Int × Int) (allocOk : Bool) : co_poll_t × Option Int :=
  let id := s.timeEventNextId
  let s := { s with timeEventNextId := s.timeEventNextId + 1 }
  if !allocOk then (s, none)
  else
    let w := aeAddMillisecondsToNow cur milliseconds
    let te : coTimeEvent := ⟨id, w.1, w.2, proc, finalizerProc, clientData⟩
    ({ s with timeEventHead := te :: s.timeEventHead }, some id)

/-- Walk of `eco_poll_time_event_delete`: mark the first node whose id
matches (`te->id = ECO_POLL_DELETED_EVENT_ID`), `none` when no node
matches. -/
def deleteGo (id : Int) : List coTimeEvent → Option (List coTimeEvent)
  | [] => none
  | te :: rest =>
      if te.id = id then some ({ te with id := ECO_POLL_DELETED_EVENT_ID } :: rest)
      else (deleteGo id rest).map (te :: ·)

/-- `eco_poll_time_event_delete`: lazy cancellation by id. -/
def eco_poll_time_event_delete (s : co_poll_t) (id : Int) : co_poll_t × Bool :=
  match deleteGo id s.timeEventHead with
  | some l => ({ s with timeEventHead := l }, true)
  | none => (s, false)

/-- `eco_poll_time_fire_all`: set every non-deleted timer's deadline to
the current time. -/
def eco_poll_time_fire_all (s : co_poll_t) (cur : Int × Int) : co_poll_t :=
  { s with timeEventHead := s.timeEventHead.map (fun te =>
      if te.id ≠ ECO_POLL_DELETED_EVENT_ID then
        { te with when_sec := cur.1, when_ms := cur.2 }
      else te) }

/-- Walk of `aeSearchNearestTimer` with the `nearest` accumulator. -/
def searchNearestGo (nearest : Option coTimeEvent) :
    List coTimeEvent → Option coTimeEvent
  | [] => nearest
  | te :: rest =>
      let nearest' :=
        match nearest with
        | none => some te
        | some nb =>
            if te.when_sec < nb.when_sec ∨
                (te.when_sec = nb.when_sec ∧ te.when_ms < nb.when_ms) then
              some te
            else some nb
      searchNearestGo nearest' rest

/-- `aeSearchNearestTimer`. -/
def aeSearchNearestTimer (s : co_poll_t) : Option coTimeEvent :=
  searchNearestGo none s.timeEventHead

/-- Behaviour of timer callbacks: token → id → clientData → return value
(`ECO_POLL_NOMORE` or a reschedule delay in milliseconds). -/
def TimerCbEnv : Type := Nat → Int → Nat → Int

/-- Result of one timer sweep: the surviving list, the count of fired
callbacks (`processed`), the ids fired, and one `(finalizer token,
clientData)` entry per finalizer invocation, in invocation order. -/
structure SweepResult where
  timers : List coTimeEvent
  processed : Nat
  fired : List Int
  finalized : List (Nat × Nat)
deriving Repr, DecidableEq

/-- The sweep loop of `processTimeEvents` (after the clock-regression
guard): unlink-and-finalize nodes already marked deleted, skip nodes
with `id > maxId`, fire due nodes and reschedule or mark them.  The
`aeGetTime` observation `cur` is taken as constant within the sweep. -/
def sweepGo (env : TimerCbEnv) (maxId : Int) (cur : Int × Int) :
    List coTimeEvent → SweepResult
  | [] => ⟨[], 0, [], []⟩
  | te :: rest =>
      if te.id = ECO_POLL_DELETED_EVENT_ID then
        let r := sweepGo env maxId cur rest
        ⟨r.timers, r.processed, r.fired,
          (match te.finalizerProc with
           | some f => (f, te.clientData) :: r.finalized
           | none => r.finalized)⟩
      else if te.id > maxId then
        let r := sweepGo env maxId cur rest
        ⟨te :: r.timers, r.processed, r.fired, r.finalized⟩
      else if cur.1 > te.when_sec ∨ (cur.1 = te.when_sec ∧ cur.2 ≥ te.when_ms) then
        let retval := env te.timeProc te.id te.clientData
        let te' :=
          if retval ≠ ECO_POLL_NOMORE then
            let w := aeAddMillisecondsToNow cur retval
            { te with when_sec := w.1, when_ms := w.2 }
          else { te with id := ECO_POLL_DELETED_EVENT_ID }
        let r := sweepGo env maxId cur rest
        ⟨te' :: r.timers, r.processed + 1, te.id :: r.fired, r.finalized⟩
      else
        let r := sweepGo env maxId cur rest
        ⟨te :: r.timers, r.processed, r.fired, r.finalized⟩

/-- Result of `processTimeEvents` (state plus the sweep's logs). -/
structure ProcessTimeResult where
  state : co_poll_t
  processed : Nat
  fired : List Int
  finalized : List (Nat × Nat)
deriving Repr, DecidableEq

/-- The clock-regression guard at the top of `processTimeEvents`: when
`now` (the `time(NULL)` observation) is earlier than the last observed
time, every node's `when_sec` is forced to 0, deleted nodes included. -/
def regressedTimers (s : co_poll_t) (now : Int) : List coTimeEvent :=
  if now < s.lastTime then
    s.timeEventHead.map (fun te => { te with when_sec := 0 })
  else s.timeEventHead

/-- `processTimeEvents`: clock-regression guard, then one sweep with the
id fence `maxId = timeEventNextId - 1`. -/
def processTimeEvents (env : TimerCbEnv) (s : co_poll_t) (now : Int)
    (cur : Int × Int) : ProcessTimeResult :=
  let maxId := s.timeEventNextId - 1
  let r := sweepGo env maxId cur (regressedTimers s now)
  ⟨{ s with timeEventHead := r.timers, lastTime := now },
    r.processed, r.fired, r.finalized⟩

/-! ## Dispatch loop (`eco_poll_process_events`) -/

/-- Behaviour of file callbacks: token → current loop state → fd →
clientData → fired mask → new loop state (a callback may mutate the
whole loop, e.g. unregister other descriptors). -/
def FileCbEnv : Type := Nat → co_poll_t → Nat → Nat → Nat → co_poll_t

/-- One iteration of the fired-events loop (body of the `for` over
`poll->fired`).  The accumulator is (state, `processed`, invocation log);
`ev = (fd, mask)` is one fired entry.  Field reads follow the C:
`fe->mask`, `fe->rfileProc`, `fe->clientData` are re-read from the
*current* state before each branch (the readable callback may have
mutated the slot before the writable check runs). -/
def dispatchStep (env : FileCbEnv) (acc : co_poll_t × Nat × List (Nat × Nat))
    (ev : Nat × Nat) : co_poll_t × Nat × List (Nat × Nat) :=
  let s := acc.1
  let processed := acc.2.1
  let log := acc.2.2
  let fd := ev.1
  let mask := ev.2
  let feR := getSlot s fd
  let rfired : Bool := feR.mask &&& mask &&& ECO_POLL_READABLE != 0
  let s1log :=
    if rfired then
      match feR.rfileProc with
      | some p => (env p s fd feR.clientData mask, log ++ [(fd, p)])
      | none => (s, log)
    else (s, log)
  let s1 := s1log.1
  let log1 := s1log.2
  let feW := getSlot s1 fd
  let s2log :=
    if feW.mask &&& mask &&& ECO_POLL_WRITABLE != 0 then
      match feW.wfileProc with
      | some p =>
          if !rfired || feW.rfileProc != some p then
            (env p s1 fd feW.clientData mask, log1 ++ [(fd, p)])
          else (s1, log1)
      | none => (s1, log1)
    else (s1, log1)
  (s2log.1, processed + 1, s2log.2)

/-- The fired-events loop over the backend's report (the `fired` buffer
filled by `aeApiPoll`, as a list of `(fd, mask)` pairs). -/
def dispatchFired (env : FileCbEnv) (s : co_poll_t)
    (fired : List (Nat × Nat)) : co_poll_t × Nat × List (Nat × Nat) :=
  fired.foldl (dispatchStep env) (s, 0, [])

/-- The wait-budget computation of `eco_poll_process_events` (lines
computing `tvp` for the backend poll): `some (tv_sec, tv_usec)` for a
bounded wait, `none` for "wait forever".  It only parameterises the
abstract backend poll, whose report is a model input. -/
def aeComputeWait (s : co_poll_t) (wantTime : Bool) (timeout : Int)
    (cur : Int × Int) : Option (Int × Int) :=
  let shortest := if wantTime && timeout != 0 then aeSearchNearestTimer s else none
  match shortest with
  | some sh =>
      let tv_sec := sh.when_sec - cur.1
      let tv :=
        if sh.when_ms < cur.2 then (tv_sec - 1, ((sh.when_ms + 1000) - cur.2) * 1000)
        else (tv_sec, (sh.when_ms - cur.2) * 1000)
      let tv_sec := if tv.1 < 0 then 0 else tv.1
      let tv_usec := if tv.2 < 0 then 0 else tv.2
      some (tv_sec, tv_usec)
  | none =>
      if timeout > 0 then some (Int.tdiv timeout 1000, Int.tmod timeout 1000 * 1000)
      else if timeout = 0 then some (0, 0)
      else none

/-- Result of `eco_poll_process_events`: final state, the returned
`processed` count, the log of file-callback invocations, and the
timer sweep's fired/finalized logs. -/
structure ProcessResult where
  state : co_poll_t
  processed : Nat
  fileLog : List (Nat × Nat)
  timerFired : List Int
  timerFinalized : List (Nat × Nat)
deriving Repr, DecidableEq

/-- `eco_poll_process_events`.  `wantFile` / `wantTime` model the
`ECO_POLL_FILE_EVENTS` / `ECO_POLL_TIME_EVENTS` flag bits; `pollReport`
is the `(fd, mask)` list produced by the abstract `aeApiPoll`
(`numevents` is its length); `now` is the sweep's `time(NULL)`
observation and `cur` the `aeGetTime` observation. -/
def eco_poll_process_events (fenv : FileCbEnv) (tenv : TimerCbEnv)
    (s : co_poll_t) (wantFile wantTime : Bool) (timeout : Int)
    (pollReport : List (Nat × Nat)) (now : Int) (cur : Int × Int) :
    ProcessResult :=
  if !wantTime && !wantFile then ⟨s, 0, [], [], []⟩
  else
    let step1 :=
      if s.maxfd != -1 || (wantTime && timeout != 0) then
        let _tvp := aeComputeWait s wantTime timeout cur
        dispatchFired fenv s pollReport
      else (s, 0, [])
    let s1 := step1.1
    let processed1 := step1.2.1
    let log := step1.2.2
    if wantTime then
      let r := processTimeEvents tenv s1 now cur
      ⟨r.state, processed1 + r.processed, log, r.fired, r.finalized⟩
    else ⟨s1, processed1, log, [], []⟩

/-! ## Spec-side predicates and operation traces

These definitions are not translations of C code; they state the
properties the claims talk about (oracle for the `maxfd` invariant, the
trace of operations a client can perform, a per-node characterisation
of the sweep used in theorem statements). -/

/-- `m` is the largest descriptor index with a non-NONE mask, or -1 when
every slot's mask is NONE (the claimed `maxWatchedFd` invariant). -/
def IsMaxMask (evs : List coFileEvent) (m : Int) : Prop :=
  (m = -1 ∨ ∃ i, i < evs.length ∧ (i : Int) = m ∧
      (evs.getD i emptyFileEvent).mask ≠ ECO_POLL_NONE)
  ∧ ∀ i, i < evs.length →
      (evs.getD i emptyFileEvent).mask ≠ ECO_POLL_NONE → (i : Int) ≤ m

instance (evs : List coFileEvent) (m : Int) : Decidable (IsMaxMask evs m) := by
  unfold IsMaxMask; infer_instance

/-- One register/update/unregister call, with the backend oracle result
for the calls that consult the backend. -/
inductive FileOp
  | fcreate (fd : Nat) (mask : Nat) (proc : Option Nat) (clientData : Nat) (apiOk : Bool)
  | fupdate (fd : Nat) (mask : Nat) (proc : Option Nat) (clientData : Nat) (apiOk : Bool)
  | fdelete (fd : Nat) (mask : Nat)

/-- A register/update op carries a non-NONE mask (unregister ops are
unconstrained). -/
def FileOp.goodMask : FileOp → Prop
  | .fcreate _ mask _ _ _ => mask ≠ ECO_POLL_NONE
  | .fupdate _ mask _ _ _ => mask ≠ ECO_POLL_NONE
  | .fdelete _ _ => True

instance (op : FileOp) : Decidable op.goodMask := by
  cases op <;> (unfold FileOp.goodMask; infer_instance)

def applyFileOp (s : co_poll_t) : FileOp → co_poll_t
  | .fcreate fd mask proc cd ok => (eco_poll_file_event_create s fd mask proc cd ok).1
  | .fupdate fd mask proc cd ok => (eco_poll_file_event_update s fd mask proc cd ok).1
  | .fdelete fd mask => eco_poll_file_event_delete s fd mask

def runFileOps (s : co_poll_t) : List FileOp → co_poll_t
  | [] => s
  | op :: ops => runFileOps (applyFileOp s op) ops

/-- One timer-related operation (everything a client or a callback can
do to the timer list), with its oracles. -/
inductive TimerOp
  | tcreate (ms : Int) (proc clientData : Nat) (fin : Option Nat)
      (cur : Int × Int) (allocOk : Bool)
  | tdelete (id : Int)
  | tfireall (cur : Int × Int)
  | tsweep (now : Int) (cur : Int × Int)

/-- Apply one timer op; the second component is the list of timer ids
whose fire callback was invoked by the op (empty except for sweeps). -/
def applyTimerOp (env : TimerCbEnv) (s : co_poll_t) : TimerOp → co_poll_t × List Int
  | .tcreate ms proc cd fin cur ok =>
      ((eco_poll_time_event_create s ms proc cd fin cur ok).1, [])
  | .tdelete id => ((eco_poll_time_event_delete s id).1, [])
  | .tfireall cur => (eco_poll_time_fire_all s cur, [])
  | .tsweep now cur =>
      let r := processTimeEvents env s now cur
      (r.state, r.fired)

/-- Run a list of timer ops, concatenating the fired-id logs. -/
def runTimerOps (env : TimerCbEnv) (s : co_poll_t) :
    List TimerOp → co_poll_t × List Int
  | [] => (s, [])
  | op :: ops =>
      let r := applyTimerOp env s op
      let rest := runTimerOps env r.1 ops
      (rest.1, r.2 ++ rest.2)

/-- The finalizer invocation a node produces when it is unlinked. -/
def finEntry (te : coTimeEvent) : Option (Nat × Nat) :=
  te.finalizerProc.map (fun f => (f, te.clientData))

/-- How one sweep visit transforms a node: marked nodes are unlinked
(`none`), fenced (`id > maxId`) and not-yet-due nodes survive unchanged,
due nodes fire and are rescheduled or marked according to the callback's
return value. -/
def sweepNode (env : TimerCbEnv) (maxId : Int) (cur : Int × Int)
    (te : coTimeEvent) : Option coTimeEvent :=
  if te.id = ECO_POLL_DELETED_EVENT_ID then none
  else if te.id > maxId then some te
  else if cur.1 > te.when_sec ∨ (cur.1 = te.when_sec ∧ cur.2 ≥ te.when_ms) then
    let retval := env te.timeProc te.id te.clientData
    if retval ≠ ECO_POLL_NOMORE then
      let w := aeAddMillisecondsToNow cur retval
      some { te with when_sec := w.1, when_ms := w.2 }
    else some { te with id := ECO_POLL_DELETED_EVENT_ID }
  else some te

/-- Lexicographic order on (seconds, milliseconds) deadlines. -/
def lexLe (a b : coTimeEvent) : Prop :=
  a.when_sec < b.when_sec ∨ (a.when_sec = b.when_sec ∧ a.when_ms ≤ b.when_ms)

/-- No node in the timer list carries id `t`, and `t` is below the id
counter (so no future creation can issue it again). -/
def NoTimerId (t : Int) (s : co_poll_t) : Prop :=
  (∀ te ∈ s.timeEventHead, te.id ≠ t) ∧ t < s.timeEventNextId

/-! ## Helper lemmas -/

lemma getD_set_self (l : List coFileEvent) (i : Nat) (a d : coFileEvent)
    (h : i < l.length) : (l.set i a).getD i d = a := by
  simp [List.getD, List.getElem?_set_self, h]

lemma getD_set_ne (l : List coFileEvent) (i j : Nat) (a d : coFileEvent)
    (h : i ≠ j) : (l.set i a).getD j d = l.getD j d := by
  simp [List.getD, List.getElem?_set_ne, h]

lemma lor_ne_zero_right (a b : Nat) (h : b ≠ 0) : a ||| b ≠ 0 := by
  intro h0
  apply h
  apply Nat.eq_of_testBit_eq
  intro i
  have h2 := congrArg (fun x => x.testBit i) h0
  simp [Nat.testBit_or] at h2 ⊢
  exact h2.2

/-- The two registration entry points share their table-side behaviour
(they differ only in which backend call they make, and that call is an
oracle in the model). -/
lemma update_eq_create (s : co_poll_t) (fd mask : Nat) (proc : Option Nat)
    (clientData : Nat) (apiOk : Bool) :
    eco_poll_file_event_update s fd mask proc clientData apiOk
      = eco_poll_file_event_create s fd mask proc clientData apiOk := rfl

lemma create_events_length (s : co_poll_t) (fd mask : Nat) (proc : Option Nat)
    (clientData : Nat) (apiOk : Bool) :
    (eco_poll_file_event_create s fd mask proc clientData apiOk).1.events.length
      = s.events.length := by
  unfold eco_poll_file_event_create
  split_ifs <;> (try rfl) <;> dsimp only <;> split <;> simp

lemma create_slot_mask (s : co_poll_t) (fd mask : Nat) (proc : Option Nat)
    (clientData : Nat) (h : fd < s.events.length) :
    (getSlot (eco_poll_file_event_create s fd mask proc clientData true).1 fd).mask
      = (getSlot s fd).mask ||| mask := by
  unfold eco_poll_file_event_create
  rw [if_neg (Nat.not_le.mpr h)]
  split_ifs <;>
    first
    | (exfalso; simp_all; done)
    | (dsimp only; split <;> simp [getSlot, List.getD, List.getElem?_set_self, h])

lemma create_slot_other (s : co_poll_t) (fd mask : Nat) (proc : Option Nat)
    (clientData : Nat) (apiOk : Bool) (j : Nat) (hj : j ≠ fd) :
    getSlot (eco_poll_file_event_create s fd mask proc clientData apiOk).1 j
      = getSlot s j := by
  unfold eco_poll_file_event_create
  split_ifs <;> (try rfl) <;> dsimp only <;> split <;>
    simp [getSlot, List.getD, List.getElem?_set_ne, hj, Ne.symm hj]

lemma create_maxfd (s : co_poll_t) (fd mask : Nat) (proc : Option Nat)
    (clientData : Nat) (h : fd < s.events.length) :
    (eco_poll_file_event_create s fd mask proc clientData true).1.maxfd
      = if (fd : Int) > s.maxfd then (fd : Int) else s.maxfd := by
  unfold eco_poll_file_event_create
  rw [if_neg (Nat.not_le.mpr h)]
  split_ifs <;>
    first
    | (exfalso; simp_all; done)
    | (dsimp only; split <;> simp_all)

/-! ## C10: timer creation always consumes an id -/

/-- C10: every call to `eco_poll_time_event_create` increments the id
counter `timeEventNextId` by exactly one, even when the node allocation
fails; on allocation failure the call returns failure and leaves the
timer list unchanged, so the id is permanently consumed. -/
theorem timeEventCreate_always_consumes_id (s : co_poll_t) (ms : Int)
    (proc clientData : Nat) (fin : Option Nat) (cur : Int × Int) (allocOk : Bool) :
    (eco_poll_time_event_create s ms proc clientData fin cur allocOk).1.timeEventNextId
        = s.timeEventNextId + 1
    ∧ (allocOk = false →
        (eco_poll_time_event_create s ms proc clientData fin cur allocOk).2 = none
        ∧ (eco_poll_time_event_create s ms proc clientData fin cur allocOk).1.timeEventHead
            = s.timeEventHead) := by
  cases allocOk <;> simp [eco_poll_time_event_create]

/-- Witness for C10's theorem: a concrete failing allocation still
consumes the id. -/
theorem timeEventCreate_always_consumes_id_witness :
    (eco_poll_time_event_create (eco_poll_create 2 0) 100 3 9 none (0, 0) false).1.timeEventNextId
        = (eco_poll_create 2 0).timeEventNextId + 1
    ∧ (eco_poll_time_event_create (eco_poll_create 2 0) 100 3 9 none (0, 0) false).2 = none
    ∧ (eco_poll_time_event_create (eco_poll_create 2 0) 100 3 9 none (0, 0) false).1.timeEventHead
        = (eco_poll_create 2 0).timeEventHead := by
  have h := timeEventCreate_always_consumes_id (eco_poll_create 2 0) 100 3 9 none (0, 0) false
  exact ⟨h.1, (h.2 rfl).1, (h.2 rfl).2⟩

/-! ## C5: backend failure leaves the registration state untouched -/

/-- C5: when the backend add/modify call fails during
`eco_poll_file_event_create` or `eco_poll_file_event_update` (the
descriptor being within capacity, so the backend call is reached), the
call returns failure and the whole loop state — the slot's mask, both
callbacks, the user data and `maxfd` included — is exactly as before. -/
theorem register_backend_failure_leaves_state (s : co_poll_t) (fd mask : Nat)
    (proc : Option Nat) (clientData : Nat) (h : fd < s.events.length) :
    eco_poll_file_event_create s fd mask proc clientData false = (s, false)
    ∧ eco_poll_file_event_update s fd mask proc clientData false = (s, false) := by
  constructor <;>
    simp [eco_poll_file_event_create, eco_poll_file_event_update, Nat.not_le.mpr h]

/-- Witness for C5's theorem at a concrete in-range descriptor. -/
theorem register_backend_failure_leaves_state_witness :
    eco_poll_file_event_create (eco_poll_create 1 0) 0 1 (some 3) 4 false
        = (eco_poll_create 1 0, false)
    ∧ eco_poll_file_event_update (eco_poll_create 1 0) 0 1 (some 3) 4 false
        = (eco_poll_create 1 0, false) :=
  register_backend_failure_leaves_state (eco_poll_create 1 0) 0 1 (some 3) 4 (by decide)

/-! ## C9: registration accumulates interest -/

/-- C9: starting from a slot with no interest, registering mask `r1` and
then `r2` on the same descriptor (both backend calls succeeding) leaves
the slot's mask equal to `r1 ||| r2` — interest accumulates rather than
being replaced — whether the second call goes through the create or the
update entry point. -/
theorem register_accumulates (s : co_poll_t) (fd r1 r2 : Nat)
    (p1 p2 : Option Nat) (c1 c2 : Nat)
    (h : fd < s.events.length) (h0 : (getSlot s fd).mask = ECO_POLL_NONE) :
    (getSlot (eco_poll_file_event_create
        (eco_poll_file_event_create s fd r1 p1 c1 true).1 fd r2 p2 c2 true).1 fd).mask
      = r1 ||| r2
    ∧ (getSlot (eco_poll_file_event_update
        (eco_poll_file_event_create s fd r1 p1 c1 true).1 fd r2 p2 c2 true).1 fd).mask
      = r1 ||| r2 := by
  have h1 : fd < (eco_poll_file_event_create s fd r1 p1 c1 true).1.events.length := by
    rw [create_events_length]; exact h
  have e1 := create_slot_mask s fd r1 p1 c1 h
  have e2 := create_slot_mask _ fd r2 p2 c2 h1
  rw [h0] at e1
  rw [update_eq_create, e2, e1, ECO_POLL_NONE, Nat.zero_or]
  exact ⟨rfl, rfl⟩

/-- Witness for C9's theorem: READABLE then WRITABLE on a fresh slot
yields READABLE|WRITABLE. -/
theorem register_accumulates_witness :
    (getSlot (eco_poll_file_event_create
        (eco_poll_file_event_create (eco_poll_create 1 0) 0 ECO_POLL_READABLE (some 3) 0 true).1
        0 ECO_POLL_WRITABLE (some 4) 0 true).1 0).mask
      = ECO_POLL_READABLE ||| ECO_POLL_WRITABLE
    ∧ (getSlot (eco_poll_file_event_update
        (eco_poll_file_event_create (eco_poll_create 1 0) 0 ECO_POLL_READABLE (some 3) 0 true).1
        0 ECO_POLL_WRITABLE (some 4) 0 true).1 0).mask
      = ECO_POLL_READABLE ||| ECO_POLL_WRITABLE :=
  register_accumulates (eco_poll_create 1 0) 0 ECO_POLL_READABLE ECO_POLL_WRITABLE
    (some 3) (some 4) 0 0 (by decide) (by decide)

/-! ## C8: nearest-timer search -/

lemma lexLe_refl (a : coTimeEvent) : lexLe a a := Or.inr ⟨rfl, le_refl _⟩

lemma searchNearestGo_spec (l : List coTimeEvent) : ∀ acc : Option coTimeEvent,
    (searchNearestGo acc l = none ↔ (acc = none ∧ l = []))
    ∧ (∀ te, searchNearestGo acc l = some te →
        (te ∈ l ∨ acc = some te)
        ∧ (∀ u ∈ l, lexLe te u)
        ∧ (∀ v, acc = some v → lexLe te v)) := by
  induction l with
  | nil =>
      intro acc
      refine ⟨by simp [searchNearestGo], ?_⟩
      intro te hte
      simp only [searchNearestGo] at hte
      subst hte
      refine ⟨Or.inr rfl, by simp, ?_⟩
      intro v hv
      injection hv with hv
      subst hv
      exact lexLe_refl te
  | cons te rest ih =>
      intro acc
      have hstep : ∀ acc2 : Option coTimeEvent,
          searchNearestGo acc2 (te :: rest)
            = searchNearestGo
                (match acc2 with
                 | none => some te
                 | some nb =>
                     if te.when_sec < nb.when_sec ∨
                         (te.when_sec = nb.when_sec ∧ te.when_ms < nb.when_ms) then
                       some te
                     else some nb) rest := by
        intro acc2; rfl
      cases acc with
      | none =>
          rw [hstep]
          dsimp only
          refine ⟨?_, ?_⟩
          · rw [(ih (some te)).1]; simp
          · intro tm htm
            obtain ⟨hmem, hrest, hacc⟩ := (ih (some te)).2 tm htm
            have hle : lexLe tm te := hacc te rfl
            refine ⟨?_, ?_, ?_⟩
            · rcases hmem with h | h
              · exact Or.inl (List.mem_cons_of_mem _ h)
              · injection h with h; subst h; exact Or.inl (List.mem_cons_self _ _)
            · intro u hu
              rcases List.mem_cons.mp hu with h | h
              · subst h; exact hle
              · exact hrest u h
            · intro v hv; cases hv
      | some nb =>
          rw [hstep]
          dsimp only
          by_cases hlt : te.when_sec < nb.when_sec ∨
              (te.when_sec = nb.when_sec ∧ te.when_ms < nb.when_ms)
          · rw [if_pos hlt]
            refine ⟨?_, ?_⟩
            · rw [(ih (some te)).1]; simp
            · intro tm htm
              obtain ⟨hmem, hrest, hacc⟩ := (ih (some te)).2 tm htm
              have hle : lexLe tm te := hacc te rfl
              refine ⟨?_, ?_, ?_⟩
              · rcases hmem with h | h
                · exact Or.inl (List.mem_cons_of_mem _ h)
                · injection h with h; subst h; exact Or.inl (List.mem_cons_self _ _)
              · intro u hu
                rcases List.mem_cons.mp hu with h | h
                · subst h; exact hle
                · exact hrest u h
              · intro v hv
                injection hv with hv; subst hv
                simp only [lexLe] at hle ⊢
                omega
          · rw [if_neg hlt]
            refine ⟨?_, ?_⟩
            · rw [(ih (some nb)).1]; simp
            · intro tm htm
              obtain ⟨hmem, hrest, hacc⟩ := (ih (some nb)).2 tm htm
              have hle : lexLe tm nb := hacc nb rfl
              refine ⟨?_, ?_, ?_⟩
              · rcases hmem with h | h
                · exact Or.inl (List.mem_cons_of_mem _ h)
                · exact Or.inr h
              · intro u hu
                rcases List.mem_cons.mp hu with h | h
                · subst h
                  simp only [lexLe] at hle ⊢
                  omega
                · exact hrest u h
              · intro v hv
                injection hv with hv; subst hv
                exact hle

/-- C8: `aeSearchNearestTimer` returns `none` exactly when the timer
list is empty; otherwise it returns a node of the list (deleted-marked
nodes are scanned like any other) whose (seconds, milliseconds)
deadline is lexicographically minimal over the whole list. -/
theorem searchNearest_minimal (s : co_poll_t) :
    (aeSearchNearestTimer s = none ↔ s.timeEventHead = [])
    ∧ (∀ te, aeSearchNearestTimer s = some te →
        te ∈ s.timeEventHead ∧ ∀ u ∈ s.timeEventHead, lexLe te u) := by
  have h := searchNearestGo_spec s.timeEventHead none
  unfold aeSearchNearestTimer
  constructor
  · rw [h.1]; simp
  · intro te hte
    obtain ⟨hmem, hall, _⟩ := h.2 te hte
    rcases hmem with hm | hm
    · exact ⟨hm, hall⟩
    · cases hm

/-- Witness for C8's theorem: over deadlines (2s,500ms), (1s,100ms),
(3s,0ms) the search returns the (1s,100ms) timer, and it is minimal. -/
theorem searchNearest_minimal_witness :
    aeSearchNearestTimer
        { events := [], maxfd := -1,
          timeEventHead := [⟨0, 2, 500, 0, none, 0⟩, ⟨1, 1, 100, 0, none, 0⟩,
            ⟨2, 3, 0, 0, none, 0⟩],
          timeEventNextId := 3, lastTime := 0 }
      = some ⟨1, 1, 100, 0, none, 0⟩
    ∧ (⟨1, 1, 100, 0, none, 0⟩ : coTimeEvent)
        ∈ [⟨0, 2, 500, 0, none, 0⟩, ⟨1, 1, 100, 0, none, 0⟩, ⟨2, 3, 0, 0, none, 0⟩]
    ∧ ∀ u ∈ ([⟨0, 2, 500, 0, none, 0⟩, ⟨1, 1, 100, 0, none, 0⟩,
        ⟨2, 3, 0, 0, none, 0⟩] : List coTimeEvent),
        lexLe ⟨1, 1, 100, 0, none, 0⟩ u := by
  have h := searchNearest_minimal
    { events := [], maxfd := -1,
      timeEventHead := [⟨0, 2, 500, 0, none, 0⟩, ⟨1, 1, 100, 0, none, 0⟩,
        ⟨2, 3, 0, 0, none, 0⟩],
      timeEventNextId := 3, lastTime := 0 }
  have e : aeSearchNearestTimer
      { events := [], maxfd := -1,
        timeEventHead := [⟨0, 2, 500, 0, none, 0⟩, ⟨1, 1, 100, 0, none, 0⟩,
          ⟨2, 3, 0, 0, none, 0⟩],
        timeEventNextId := 3, lastTime := 0 }
      = some ⟨1, 1, 100, 0, none, 0⟩ := by rfl
  exact ⟨e, (h.2 _ e).1, (h.2 _ e).2⟩

/-! ## C3 / C6: dispatch revalidation against the current mask -/

/-- A fired entry whose ready mask has no bit in common with the slot's
*current* interest mask (`fe->mask & mask` = 0) is skipped: neither
callback is invoked, no state changes, and only the entry counter
advances. -/
lemma dispatchStep_stale (env : FileCbEnv) (acc : co_poll_t × Nat × List (Nat × Nat))
    (fd m : Nat) (h : (getSlot acc.1 fd).mask &&& m = 0) :
    dispatchStep env acc (fd, m) = (acc.1, acc.2.1 + 1, acc.2.2) := by
  unfold dispatchStep
  dsimp only
  simp [h]

/-- C6 counterexample: registering READABLE interest with a callback and
then unregistering it leaves the slot's mask at NONE but the readable
callback reference still installed — `eco_poll_file_event_delete` clears
mask bits only, never the proc fields. -/
theorem none_mask_slot_counterexample :
    (getSlot (eco_poll_file_event_delete
        (eco_poll_file_event_create (eco_poll_create 1 0) 0 ECO_POLL_READABLE (some 7) 0 true).1
        0 ECO_POLL_READABLE) 0).mask = ECO_POLL_NONE
    ∧ (getSlot (eco_poll_file_event_delete
        (eco_poll_file_event_create (eco_poll_create 1 0) 0 ECO_POLL_READABLE (some 7) 0 true).1
        0 ECO_POLL_READABLE) 0).rfileProc = some 7 := by decide

/-- C6 (amended): a slot whose interest mask equals NONE never has a
callback invoked on its behalf by the dispatch pass: a fired entry for
it leaves the loop state and the invocation log unchanged (the stale
callback references that remain installed after unregistering all
interest bits are dead). -/
theorem none_mask_slot_never_invoked (env : FileCbEnv)
    (acc : co_poll_t × Nat × List (Nat × Nat)) (fd m : Nat)
    (h : (getSlot acc.1 fd).mask = ECO_POLL_NONE) :
    dispatchStep env acc (fd, m) = (acc.1, acc.2.1 + 1, acc.2.2) := by
  apply dispatchStep_stale
  rw [h]
  simp [ECO_POLL_NONE]

/-- Witness for C6's amended theorem: dispatching a fired entry for the
unregistered slot of the counterexample invokes nothing. -/
theorem none_mask_slot_never_invoked_witness :
    dispatchStep (fun _ s _ _ _ => s)
      ((eco_poll_file_event_delete
          (eco_poll_file_event_create (eco_poll_create 1 0) 0 ECO_POLL_READABLE (some 7) 0 true).1
          0 ECO_POLL_READABLE), 0, [])
      (0, ECO_POLL_READABLE ||| ECO_POLL_WRITABLE)
      = ((eco_poll_file_event_delete
          (eco_poll_file_event_create (eco_poll_create 1 0) 0 ECO_POLL_READABLE (some 7) 0 true).1
          0 ECO_POLL_READABLE), 0 + 1, []) :=
  none_mask_slot_never_invoked (fun _ s _ _ _ => s) (_, 0, []) 0
    (ECO_POLL_READABLE ||| ECO_POLL_WRITABLE) (by decide)

lemma dispatchFired_append (env : FileCbEnv) (s : co_poll_t)
    (l1 l2 : List (Nat × Nat)) :
    dispatchFired env s (l1 ++ l2)
      = l2.foldl (dispatchStep env) (dispatchFired env s l1) := by
  unfold dispatchFired
  rw [List.foldl_append]

/-- C3: during one dispatch pass, each fired entry is validated against
the slot's mask as it stands *when the entry is processed*: if the
callbacks run for earlier entries of the pass left `fd`'s interest with
no bit in common with its reported ready mask, then processing `fd`'s
entry invokes no callback (the invocation log after it equals the log
before it) and changes no state.  The quantified `env` lets the earlier
callbacks mutate the loop arbitrarily — e.g. unregister `fd`. -/
theorem dispatch_revalidates_current_mask (env : FileCbEnv) (s : co_poll_t)
    (pre : List (Nat × Nat)) (fd m : Nat)
    (h : (getSlot (dispatchFired env s pre).1 fd).mask &&& m = 0) :
    (dispatchFired env s (pre ++ [(fd, m)])).1 = (dispatchFired env s pre).1
    ∧ (dispatchFired env s (pre ++ [(fd, m)])).2.2 = (dispatchFired env s pre).2.2 := by
  rw [dispatchFired_append]
  have hone : ([(fd, m)] : List (Nat × Nat)).foldl (dispatchStep env)
      (dispatchFired env s pre) = dispatchStep env (dispatchFired env s pre) (fd, m) := rfl
  rw [hone, dispatchStep_stale env _ fd m h]
  exact ⟨rfl, rfl⟩

/-- Witness for C3's theorem: descriptor 0's callback (token 1)
unregisters descriptor 1's interest; although the backend reported
descriptor 1 readable, its callback (token 2) is not invoked — the
final log is exactly `[(0, 1)]`. -/
theorem dispatch_revalidates_current_mask_witness :
    ((getSlot (dispatchFired
        (fun p s _ _ _ => if p = 1
          then eco_poll_file_event_delete s 1 (ECO_POLL_READABLE ||| ECO_POLL_WRITABLE) else s)
        { events := [⟨ECO_POLL_READABLE, some 1, none, 0⟩, ⟨ECO_POLL_READABLE, some 2, none, 0⟩],
          maxfd := 1, timeEventHead := [], timeEventNextId := 0, lastTime := 0 }
        [(0, ECO_POLL_READABLE)]).1 1).mask &&& ECO_POLL_READABLE = 0)
    ∧ (dispatchFired
        (fun p s _ _ _ => if p = 1
          then eco_poll_file_event_delete s 1 (ECO_POLL_READABLE ||| ECO_POLL_WRITABLE) else s)
        { events := [⟨ECO_POLL_READABLE, some 1, none, 0⟩, ⟨ECO_POLL_READABLE, some 2, none, 0⟩],
          maxfd := 1, timeEventHead := [], timeEventNextId := 0, lastTime := 0 }
        ([(0, ECO_POLL_READABLE)] ++ [(1, ECO_POLL_READABLE)])).2.2
      = (dispatchFired
        (fun p s _ _ _ => if p = 1
          then eco_poll_file_event_delete s 1 (ECO_POLL_READABLE ||| ECO_POLL_WRITABLE) else s)
        { events := [⟨ECO_POLL_READABLE, some 1, none, 0⟩, ⟨ECO_POLL_READABLE, some 2, none, 0⟩],
          maxfd := 1, timeEventHead := [], timeEventNextId := 0, lastTime := 0 }
        [(0, ECO_POLL_READABLE)]).2.2
    ∧ (dispatchFired
        (fun p s _ _ _ => if p = 1
          then eco_poll_file_event_delete s 1 (ECO_POLL_READABLE ||| ECO_POLL_WRITABLE) else s)
        { events := [⟨ECO_POLL_READABLE, some 1, none, 0⟩, ⟨ECO_POLL_READABLE, some 2, none, 0⟩],
          maxfd := 1, timeEventHead := [], timeEventNextId := 0, lastTime := 0 }
        [(0, ECO_POLL_READABLE)]).2.2 = [(0, 1)] := by
  refine ⟨by decide, ?_, by decide⟩
  exact (dispatch_revalidates_current_mask _ _ [(0, ECO_POLL_READABLE)] 1 ECO_POLL_READABLE
    (by decide)).2

/-! ## C2: the return value of `eco_poll_process_events` -/

lemma dispatchStep_count (env : FileCbEnv) (acc : co_poll_t × Nat × List (Nat × Nat))
    (ev : Nat × Nat) : (dispatchStep env acc ev).2.1 = acc.2.1 + 1 := rfl

/-- The fired-entries loop increments `processed` once per entry,
independently of how many callbacks each entry actually invokes. -/
lemma dispatchFired_count (env : FileCbEnv) (l : List (Nat × Nat)) :
    ∀ acc : co_poll_t × Nat × List (Nat × Nat),
    (l.foldl (dispatchStep env) acc).2.1 = acc.2.1 + l.length := by
  induction l with
  | nil => intro acc; simp
  | cons x xs ih =>
      intro acc
      rw [List.foldl_cons, ih, dispatchStep_count]
      simp [List.length_cons]
      omega

/-- The timer sweep's `processed` counter equals the number of timer
callbacks it invoked. -/
lemma sweepGo_count_eq_fired (env : TimerCbEnv) (maxId : Int) (cur : Int × Int)
    (l : List coTimeEvent) :
    (sweepGo env maxId cur l).processed = (sweepGo env maxId cur l).fired.length := by
  induction l with
  | nil => rfl
  | cons te rest ih =>
      unfold sweepGo
      split_ifs <;> simp [ih]

lemma processTimeEvents_count_eq_fired (env : TimerCbEnv) (s : co_poll_t)
    (now : Int) (cur : Int × Int) :
    (processTimeEvents env s now cur).processed
      = (processTimeEvents env s now cur).fired.length := by
  unfold processTimeEvents
  exact sweepGo_count_eq_fired _ _ _ _

/-- C2 counterexample: one stale fired entry (interest READABLE, backend
reports WRITABLE) invokes no callback at all, yet the call returns 1 —
the return value is not the number of callbacks invoked. -/
theorem processEvents_count_counterexample :
    ¬ ((eco_poll_process_events (fun _ s _ _ _ => s) (fun _ _ _ => 0)
        { events := [⟨ECO_POLL_READABLE, some 5, none, 0⟩], maxfd := 0,
          timeEventHead := [], timeEventNextId := 0, lastTime := 0 }
        true false 0 [(0, ECO_POLL_WRITABLE)] 0 (0, 0)).processed
      = (eco_poll_process_events (fun _ s _ _ _ => s) (fun _ _ _ => 0)
        { events := [⟨ECO_POLL_READABLE, some 5, none, 0⟩], maxfd := 0,
          timeEventHead := [], timeEventNextId := 0, lastTime := 0 }
        true false 0 [(0, ECO_POLL_WRITABLE)] 0 (0, 0)).fileLog.length
        + (eco_poll_process_events (fun _ s _ _ _ => s) (fun _ _ _ => 0)
        { events := [⟨ECO_POLL_READABLE, some 5, none, 0⟩], maxfd := 0,
          timeEventHead := [], timeEventNextId := 0, lastTime := 0 }
        true false 0 [(0, ECO_POLL_WRITABLE)] 0 (0, 0)).timerFired.length) := by
  decide

/-- C2 (amended): the value returned by `eco_poll_process_events` equals
the number of fired entries reported by the backend poll — each entry
counted exactly once, whether it led to zero, one or two descriptor
callback invocations — plus the number of timer callbacks invoked by
the sweep (and the poll/dispatch block only runs under the guard
`maxfd != -1 || (wantTime && timeout != 0)`). -/
theorem processEvents_returns_entry_count (fenv : FileCbEnv) (tenv : TimerCbEnv)
    (s : co_poll_t) (wantFile wantTime : Bool) (timeout : Int)
    (pollReport : List (Nat × Nat)) (now : Int) (cur : Int × Int)
    (hreq : wantFile = true ∨ wantTime = true) :
    (eco_poll_process_events fenv tenv s wantFile wantTime timeout pollReport now cur).processed
      = (if (s.maxfd != -1 || (wantTime && timeout != 0)) = true then pollReport.length else 0)
        + (eco_poll_process_events fenv tenv s wantFile wantTime timeout
            pollReport now cur).timerFired.length := by
  have hdc : ∀ s2 : co_poll_t, (dispatchFired fenv s2 pollReport).2.1 = pollReport.length := by
    intro s2
    unfold dispatchFired
    rw [dispatchFired_count]
    simp
  unfold eco_poll_process_events
  have hflag : (!wantTime && !wantFile) = false := by
    rcases hreq with h | h <;> subst h <;> simp
  rw [hflag]
  dsimp only
  by_cases hg : (s.maxfd != -1 || (wantTime && timeout != 0)) = true
  · rw [if_pos hg, if_pos hg]
    cases wantTime
    · simp [hdc]
    · simp [hdc, processTimeEvents_count_eq_fired]
  · rw [if_neg hg, if_neg hg]
    cases wantTime
    · simp
    · simp [processTimeEvents_count_eq_fired]

/-- Witness for C2's amended theorem: one stale entry and an empty timer
list give return value 1 + 0. -/
theorem processEvents_returns_entry_count_witness :
    (eco_poll_process_events (fun _ s _ _ _ => s) (fun _ _ _ => 0)
        { events := [⟨ECO_POLL_READABLE, some 5, none, 0⟩], maxfd := 0,
          timeEventHead := [], timeEventNextId := 0, lastTime := 0 }
        true true 7 [(0, ECO_POLL_WRITABLE)] 0 (0, 0)).processed
      = 1 + (eco_poll_process_events (fun _ s _ _ _ => s) (fun _ _ _ => 0)
        { events := [⟨ECO_POLL_READABLE, some 5, none, 0⟩], maxfd := 0,
          timeEventHead := [], timeEventNextId := 0, lastTime := 0 }
        true true 7 [(0, ECO_POLL_WRITABLE)] 0 (0, 0)).timerFired.length := by
  have h := processEvents_returns_entry_count (fun _ s _ _ _ => s) (fun _ _ _ => 0)
    { events := [⟨ECO_POLL_READABLE, some 5, none, 0⟩], maxfd := 0,
      timeEventHead := [], timeEventNextId := 0, lastTime := 0 }
    true true 7 [(0, ECO_POLL_WRITABLE)] 0 (0, 0) (Or.inl rfl)
  rw [if_pos (by decide)] at h
  simpa using h

/-! ## C7: clock-regression guard -/

/-- A sweep over a list whose nodes all have `when_sec = 0` and ids
within the fence fires every non-deleted node (for any positive current
second). -/
lemma sweepGo_fires_all_zeroed (env : TimerCbEnv) (maxId : Int) (cur : Int × Int)
    (hpos : 0 < cur.1) :
    ∀ l : List coTimeEvent,
      (∀ te ∈ l, te.id ≤ maxId ∧ te.when_sec = 0) →
      (sweepGo env maxId cur l).fired
        = (l.filter (fun te => te.id ≠ ECO_POLL_DELETED_EVENT_ID)).map (fun te => te.id) := by
  intro l
  induction l with
  | nil => intro hl; rfl
  | cons te rest ih =>
      intro hl
      have hte := hl te (List.mem_cons_self _ _)
      have hrest : ∀ u ∈ rest, u.id ≤ maxId ∧ u.when_sec = 0 :=
        fun u hu => hl u (List.mem_cons_of_mem _ hu)
      unfold sweepGo
      by_cases hdel : te.id = ECO_POLL_DELETED_EVENT_ID
      · rw [if_pos hdel]
        simp [List.filter_cons, hdel, ih hrest]
      · rw [if_neg hdel]
        have hfence : ¬ (te.id > maxId) := not_lt.mpr hte.1
        rw [if_neg hfence]
        have hdue : cur.1 > te.when_sec ∨ (cur.1 = te.when_sec ∧ cur.2 ≥ te.when_ms) :=
          Or.inl (by rw [hte.2]; exact hpos)
        rw [if_pos hdue]
        simp [List.filter_cons, hdel, ih hrest]

/-- C7: when a sweep observes `now` strictly earlier than the last
observed time, the regression guard forces every node's `when_sec` to 0
before firing begins, and consequently every live (non-deleted) timer
fires in that same sweep, for any positive current second — the fired
ids are exactly the live ids in list order.  (`hids` is the reachable-
state fact that every issued id is below the counter, so the sweep's id
fence skips nothing.) -/
theorem clock_regression_fires_all (env : TimerCbEnv) (s : co_poll_t)
    (now : Int) (cur : Int × Int)
    (hreg : now < s.lastTime)
    (hids : ∀ te ∈ s.timeEventHead, te.id < s.timeEventNextId)
    (hpos : 0 < cur.1) :
    regressedTimers s now = s.timeEventHead.map (fun te => { te with when_sec := 0 })
    ∧ (processTimeEvents env s now cur).fired
        = (s.timeEventHead.filter
            (fun te => te.id ≠ ECO_POLL_DELETED_EVENT_ID)).map (fun te => te.id) := by
  have hzero : regressedTimers s now
      = s.timeEventHead.map (fun te => { te with when_sec := 0 }) := by
    unfold regressedTimers; rw [if_pos hreg]
  refine ⟨hzero, ?_⟩
  unfold processTimeEvents
  dsimp only
  rw [hzero]
  rw [sweepGo_fires_all_zeroed env _ cur hpos]
  · rw [List.filter_map, List.map_map]
    rfl
  · intro te hte
    rcases List.mem_map.mp hte with ⟨u, hu, hzu⟩
    subst hzu
    constructor
    · show u.id ≤ s.timeEventNextId - 1
      have := hids u hu
      omega
    · rfl

/-- Witness for C7's theorem: a backward clock observation (now = 5
after lastTime = 10) fires the two live timers (deadlines 100s and
200s) at current time (1s, 0ms); the deleted node does not fire. -/
theorem clock_regression_fires_all_witness :
    regressedTimers
        { events := [], maxfd := -1,
          timeEventHead := [⟨0, 100, 0, 3, none, 0⟩, ⟨-1, 50, 0, 4, none, 0⟩,
            ⟨1, 200, 5, 6, none, 0⟩],
          timeEventNextId := 2, lastTime := 10 } 5
      = ([⟨0, 100, 0, 3, none, 0⟩, ⟨-1, 50, 0, 4, none, 0⟩,
          ⟨1, 200, 5, 6, none, 0⟩] : List coTimeEvent).map (fun te => { te with when_sec := 0 })
    ∧ (processTimeEvents (fun _ _ _ => 0)
        { events := [], maxfd := -1,
          timeEventHead := [⟨0, 100, 0, 3, none, 0⟩, ⟨-1, 50, 0, 4, none, 0⟩,
            ⟨1, 200, 5, 6, none, 0⟩],
          timeEventNextId := 2, lastTime := 10 } 5 (1, 0)).fired
      = (([⟨0, 100, 0, 3, none, 0⟩, ⟨-1, 50, 0, 4, none, 0⟩,
          ⟨1, 200, 5, 6, none, 0⟩] : List coTimeEvent).filter
            (fun te => te.id ≠ ECO_POLL_DELETED_EVENT_ID)).map (fun te => te.id) :=
  clock_regression_fires_all (fun _ _ _ => 0)
    { events := [], maxfd := -1,
      timeEventHead := [⟨0, 100, 0, 3, none, 0⟩, ⟨-1, 50, 0, 4, none, 0⟩,
        ⟨1, 200, 5, 6, none, 0⟩],
      timeEventNextId := 2, lastTime := 10 } 5 (1, 0)
    (by decide) (by decide) (by decide)

/-! ## C4: cancelled-timer lifecycle -/

lemma deleteGo_none_iff (t : Int) : ∀ l : List coTimeEvent,
    deleteGo t l = none ↔ ∀ te ∈ l, te.id ≠ t := by
  intro l
  induction l with
  | nil => simp [deleteGo]
  | cons te rest ih =>
      by_cases h : te.id = t
      · simp [deleteGo, h]
      · simp [deleteGo, h, ih]

lemma deleteGo_ids (t0 : Int) : ∀ l l' : List coTimeEvent, deleteGo t0 l = some l' →
    ∀ te ∈ l', te.id = ECO_POLL_DELETED_EVENT_ID ∨ ∃ u ∈ l, te.id = u.id := by
  intro l
  induction l with
  | nil => intro l' h; simp [deleteGo] at h
  | cons te rest ih =>
      intro l' h te2 hte2
      by_cases hid : te.id = t0
      · rw [deleteGo, if_pos hid] at h
        injection h with h
        subst h
        rcases List.mem_cons.mp hte2 with h2 | h2
        · subst h2; exact Or.inl rfl
        · exact Or.inr ⟨te2, List.mem_cons_of_mem _ h2, rfl⟩
      · rw [deleteGo, if_neg hid] at h
        rcases Option.map_eq_some'.mp h with ⟨rest', hrest', hl'⟩
        subst hl'
        rcases List.mem_cons.mp hte2 with h2 | h2
        · subst h2; exact Or.inr ⟨te2, List.mem_cons_self _ _, rfl⟩
        · rcases ih rest' hrest' te2 h2 with h3 | ⟨u, hu, hu2⟩
          · exact Or.inl h3
          · exact Or.inr ⟨u, List.mem_cons_of_mem _ hu, hu2⟩

lemma deleteGo_filter_counts (t : Int) (ht : t ≠ ECO_POLL_DELETED_EVENT_ID) :
    ∀ l l' : List coTimeEvent, deleteGo t l = some l' →
      ((l'.filter (fun te => te.id = t)).length + 1
          = (l.filter (fun te => te.id = t)).length)
      ∧ ((l'.filter (fun te => te.id = ECO_POLL_DELETED_EVENT_ID)).length
          = (l.filter (fun te => te.id = ECO_POLL_DELETED_EVENT_ID)).length + 1) := by
  intro l
  induction l with
  | nil => intro l' h; simp [deleteGo] at h
  | cons te rest ih =>
      intro l' h
      by_cases hid : te.id = t
      · rw [deleteGo, if_pos hid] at h
        injection h with h
        subst h
        constructor
        · simp [List.filter_cons, hid, Ne.symm ht]
        · have hne : ¬ (te.id = ECO_POLL_DELETED_EVENT_ID) := by rw [hid]; exact ht
          simp [List.filter_cons, hne]
      · rw [deleteGo, if_neg hid] at h
        rcases Option.map_eq_some'.mp h with ⟨rest', hrest', hl'⟩
        subst hl'
        obtain ⟨ih1, ih2⟩ := ih rest' hrest'
        constructor
        · simp [List.filter_cons, hid]
          omega
        · by_cases hdel : te.id = ECO_POLL_DELETED_EVENT_ID
          · simp [List.filter_cons, hdel]
            omega
          · simp [List.filter_cons, hdel]
            omega

lemma sweepNode_deleted (env : TimerCbEnv) (maxId : Int) (cur : Int × Int)
    (te : coTimeEvent) (h : te.id = ECO_POLL_DELETED_EVENT_ID) :
    sweepNode env maxId cur te = none := by
  unfold sweepNode; rw [if_pos h]

lemma sweepNode_fenced (env : TimerCbEnv) (maxId : Int) (cur : Int × Int)
    (te : coTimeEvent) (h1 : ¬ te.id = ECO_POLL_DELETED_EVENT_ID)
    (h2 : te.id > maxId) :
    sweepNode env maxId cur te = some te := by
  unfold sweepNode; rw [if_neg h1, if_pos h2]

lemma sweepNode_due (env : TimerCbEnv) (maxId : Int) (cur : Int × Int)
    (te : coTimeEvent) (h1 : ¬ te.id = ECO_POLL_DELETED_EVENT_ID)
    (h2 : ¬ te.id > maxId)
    (h3 : cur.1 > te.when_sec ∨ (cur.1 = te.when_sec ∧ cur.2 ≥ te.when_ms)) :
    sweepNode env maxId cur te
      = some (if env te.timeProc te.id te.clientData ≠ ECO_POLL_NOMORE then
          { te with
              when_sec := (aeAddMillisecondsToNow cur (env te.timeProc te.id te.clientData)).1,
              when_ms := (aeAddMillisecondsToNow cur (env te.timeProc te.id te.clientData)).2 }
        else { te with id := ECO_POLL_DELETED_EVENT_ID }) := by
  unfold sweepNode
  rw [if_neg h1, if_neg h2, if_pos h3]
  dsimp only
  by_cases h4 : env te.timeProc te.id te.clientData ≠ ECO_POLL_NOMORE
  · simp only [if_pos h4]
  · simp only [if_neg h4]

lemma sweepNode_notdue (env : TimerCbEnv) (maxId : Int) (cur : Int × Int)
    (te : coTimeEvent) (h1 : ¬ te.id = ECO_POLL_DELETED_EVENT_ID)
    (h2 : ¬ te.id > maxId)
    (h3 : ¬ (cur.1 > te.when_sec ∨ (cur.1 = te.when_sec ∧ cur.2 ≥ te.when_ms))) :
    sweepNode env maxId cur te = some te := by
  unfold sweepNode; rw [if_neg h1, if_neg h2, if_neg h3]

lemma sweepGo_timers_char (env : TimerCbEnv) (maxId : Int) (cur : Int × Int) :
    ∀ l : List coTimeEvent,
      (sweepGo env maxId cur l).timers = l.filterMap (sweepNode env maxId cur) := by
  intro l
  induction l with
  | nil => rfl
  | cons te rest ih =>
      unfold sweepGo
      rw [List.filterMap_cons]
      by_cases h1 : te.id = ECO_POLL_DELETED_EVENT_ID
      · rw [if_pos h1, sweepNode_deleted env maxId cur te h1]
        exact ih
      · rw [if_neg h1]
        by_cases h2 : te.id > maxId
        · rw [if_pos h2, sweepNode_fenced env maxId cur te h1 h2]
          dsimp only
          rw [ih]
        · rw [if_neg h2]
          by_cases h3 : cur.1 > te.when_sec ∨ (cur.1 = te.when_sec ∧ cur.2 ≥ te.when_ms)
          · rw [if_pos h3, sweepNode_due env maxId cur te h1 h2 h3]
            dsimp only
            rw [ih]
          · rw [if_neg h3, sweepNode_notdue env maxId cur te h1 h2 h3]
            dsimp only
            rw [ih]

lemma sweepGo_finalized_char (env : TimerCbEnv) (maxId : Int) (cur : Int × Int) :
    ∀ l : List coTimeEvent,
      (sweepGo env maxId cur l).finalized
        = (l.filter (fun te => te.id = ECO_POLL_DELETED_EVENT_ID)).filterMap finEntry := by
  intro l
  induction l with
  | nil => rfl
  | cons te rest ih =>
      unfold sweepGo
      rw [List.filter_cons]
      by_cases h1 : te.id = ECO_POLL_DELETED_EVENT_ID
      · rw [if_pos h1,
          if_pos (show (decide (te.id = ECO_POLL_DELETED_EVENT_ID)) = true from by simp [h1]),
          List.filterMap_cons]
        cases hf : te.finalizerProc with
        | none => simp [finEntry, hf, ih]
        | some f => simp [finEntry, hf, ih]
      · rw [if_neg h1,
          if_neg (show ¬ (decide (te.id = ECO_POLL_DELETED_EVENT_ID)) = true from by simp [h1])]
        by_cases h2 : te.id > maxId
        · rw [if_pos h2]
          dsimp only
          exact ih
        · rw [if_neg h2]
          by_cases h3 : cur.1 > te.when_sec ∨ (cur.1 = te.when_sec ∧ cur.2 ≥ te.when_ms)
          · rw [if_pos h3]
            dsimp only
            exact ih
          · rw [if_neg h3]
            dsimp only
            exact ih

lemma sweepGo_fired_ids (env : TimerCbEnv) (maxId : Int) (cur : Int × Int) :
    ∀ l : List coTimeEvent, ∀ x ∈ (sweepGo env maxId cur l).fired,
      ∃ te ∈ l, te.id = x := by
  intro l
  induction l with
  | nil => intro x hx; simp [sweepGo] at hx
  | cons te rest ih =>
      intro x hx
      unfold sweepGo at hx
      by_cases h1 : te.id = ECO_POLL_DELETED_EVENT_ID
      · rw [if_pos h1] at hx
        rcases ih x hx with ⟨u, hu, hux⟩
        exact ⟨u, List.mem_cons_of_mem _ hu, hux⟩
      · rw [if_neg h1] at hx
        by_cases h2 : te.id > maxId
        · rw [if_pos h2] at hx
          rcases ih x hx with ⟨u, hu, hux⟩
          exact ⟨u, List.mem_cons_of_mem _ hu, hux⟩
        · rw [if_neg h2] at hx
          by_cases h3 : cur.1 > te.when_sec ∨ (cur.1 = te.when_sec ∧ cur.2 ≥ te.when_ms)
          · rw [if_pos h3] at hx
            dsimp only at hx
            rcases List.mem_cons.mp hx with h4 | h4
            · exact ⟨te, List.mem_cons_self _ _, h4.symm⟩
            · rcases ih x h4 with ⟨u, hu, hux⟩
              exact ⟨u, List.mem_cons_of_mem _ hu, hux⟩
          · rw [if_neg h3] at hx
            rcases ih x hx with ⟨u, hu, hux⟩
            exact ⟨u, List.mem_cons_of_mem _ hu, hux⟩

lemma processTimeEvents_state_head (env : TimerCbEnv) (s : co_poll_t)
    (now : Int) (cur : Int × Int) :
    (processTimeEvents env s now cur).state.timeEventHead
      = (sweepGo env (s.timeEventNextId - 1) cur (regressedTimers s now)).timers := rfl

lemma processTimeEvents_fired_eq (env : TimerCbEnv) (s : co_poll_t)
    (now : Int) (cur : Int × Int) :
    (processTimeEvents env s now cur).fired
      = (sweepGo env (s.timeEventNextId - 1) cur (regressedTimers s now)).fired := rfl

lemma processTimeEvents_finalized_eq (env : TimerCbEnv) (s : co_poll_t)
    (now : Int) (cur : Int × Int) :
    (processTimeEvents env s now cur).finalized
      = (sweepGo env (s.timeEventNextId - 1) cur (regressedTimers s now)).finalized := rfl

lemma processTimeEvents_next_eq (env : TimerCbEnv) (s : co_poll_t)
    (now : Int) (cur : Int × Int) :
    (processTimeEvents env s now cur).state.timeEventNextId = s.timeEventNextId := rfl

lemma regressedTimers_ids (s : co_poll_t) (now : Int) :
    ∀ te ∈ regressedTimers s now, ∃ u ∈ s.timeEventHead, te.id = u.id := by
  intro te hte
  unfold regressedTimers at hte
  split_ifs at hte
  · rcases List.mem_map.mp hte with ⟨u, hu, hz⟩
    subst hz
    exact ⟨u, hu, rfl⟩
  · exact ⟨te, hte, rfl⟩

lemma sweepNode_some_id (env : TimerCbEnv) (maxId : Int) (cur : Int × Int)
    (u v : coTimeEvent) (h : sweepNode env maxId cur u = some v) :
    v.id = u.id ∨ v.id = ECO_POLL_DELETED_EVENT_ID := by
  unfold sweepNode at h
  dsimp only at h
  split_ifs at h with h1 h2 h3 h4 <;>
    first
    | (exact Option.noConfusion h)
    | (injection h with h; subst h; simp)

lemma applyTimerOp_no_id (env : TimerCbEnv) (t : Int)
    (ht : t ≠ ECO_POLL_DELETED_EVENT_ID) (s : co_poll_t) (op : TimerOp)
    (hs : NoTimerId t s) :
    NoTimerId t (applyTimerOp env s op).1 ∧ t ∉ (applyTimerOp env s op).2 := by
  obtain ⟨hnone, hlt⟩ := hs
  cases op with
  | tcreate ms proc cd fin cur ok =>
      refine ⟨⟨?_, ?_⟩, List.not_mem_nil t⟩
      · intro te hte
        cases ok with
        | false =>
            have hh : (applyTimerOp env s (.tcreate ms proc cd fin cur false)).1.timeEventHead
                = s.timeEventHead := rfl
            rw [hh] at hte
            exact hnone te hte
        | true =>
            have hh : (applyTimerOp env s (.tcreate ms proc cd fin cur true)).1.timeEventHead
                = ⟨s.timeEventNextId, (aeAddMillisecondsToNow cur ms).1,
                    (aeAddMillisecondsToNow cur ms).2, proc, fin, cd⟩ :: s.timeEventHead := rfl
            rw [hh] at hte
            rcases List.mem_cons.mp hte with h | h
            · rw [h]
              show s.timeEventNextId ≠ t
              omega
            · exact hnone te h
      · have hn : (applyTimerOp env s (.tcreate ms proc cd fin cur ok)).1.timeEventNextId
            = s.timeEventNextId + 1 := by cases ok <;> rfl
        rw [hn]
        omega
  | tdelete id2 =>
      cases hdel : deleteGo id2 s.timeEventHead with
      | none =>
          have hh : (applyTimerOp env s (.tdelete id2)).1 = s := by
            show (eco_poll_time_event_delete s id2).1 = s
            simp only [eco_poll_time_event_delete, hdel]
          rw [hh]
          exact ⟨⟨hnone, hlt⟩, List.not_mem_nil t⟩
      | some l2 =>
          have hh : (applyTimerOp env s (.tdelete id2)).1
              = { s with timeEventHead := l2 } := by
            show (eco_poll_time_event_delete s id2).1 = _
            simp only [eco_poll_time_event_delete, hdel]
          rw [hh]
          refine ⟨⟨?_, hlt⟩, List.not_mem_nil t⟩
          intro te hte
          rcases deleteGo_ids id2 s.timeEventHead l2 hdel te hte with h | ⟨u, hu, hu2⟩
          · rw [h]; exact Ne.symm ht
          · rw [hu2]; exact hnone u hu
  | tfireall cur =>
      refine ⟨⟨?_, hlt⟩, List.not_mem_nil t⟩
      intro te hte
      have hh : (applyTimerOp env s (.tfireall cur)).1.timeEventHead
          = s.timeEventHead.map (fun u => if u.id ≠ ECO_POLL_DELETED_EVENT_ID
              then { u with when_sec := cur.1, when_ms := cur.2 } else u) := rfl
      rw [hh] at hte
      rcases List.mem_map.mp hte with ⟨u, hu, hz⟩
      have hid : te.id = u.id := by
        rw [← hz]
        by_cases hc : u.id ≠ ECO_POLL_DELETED_EVENT_ID <;> simp [hc]
      rw [hid]
      exact hnone u hu
  | tsweep now cur =>
      refine ⟨⟨?_, ?_⟩, ?_⟩
      · intro te hte
        have hte2 : te ∈ (processTimeEvents env s now cur).state.timeEventHead := hte
        rw [processTimeEvents_state_head, sweepGo_timers_char] at hte2
        rcases List.mem_filterMap.mp hte2 with ⟨u, hu, hsn⟩
        rcases regressedTimers_ids s now u hu with ⟨w, hw, hwid⟩
        rcases sweepNode_some_id _ _ _ _ _ hsn with h | h
        · rw [h, hwid]; exact hnone w hw
        · rw [h]; exact Ne.symm ht
      · show t < (processTimeEvents env s now cur).state.timeEventNextId
        rw [processTimeEvents_next_eq]
        exact hlt
      · show t ∉ (processTimeEvents env s now cur).fired
        intro hmem
        rw [processTimeEvents_fired_eq] at hmem
        rcases sweepGo_fired_ids _ _ _ _ t hmem with ⟨u, hu, hut⟩
        rcases regressedTimers_ids s now u hu with ⟨w, hw, hwid⟩
        exact hnone w hw (hwid ▸ hut)

lemma runTimerOps_no_fire (env : TimerCbEnv) (t : Int)
    (ht : t ≠ ECO_POLL_DELETED_EVENT_ID) :
    ∀ ops : List TimerOp, ∀ s : co_poll_t, NoTimerId t s →
      t ∉ (runTimerOps env s ops).2 ∧ NoTimerId t (runTimerOps env s ops).1 := by
  intro ops
  induction ops with
  | nil =>
      intro s hs
      exact ⟨by simp [runTimerOps], hs⟩
  | cons op rest ih =>
      intro s hs
      obtain ⟨h1, h2⟩ := applyTimerOp_no_id env t ht s op hs
      obtain ⟨ih1, ih2⟩ := ih (applyTimerOp env s op).1 h1
      unfold runTimerOps
      dsimp only
      refine ⟨?_, ih2⟩
      intro hmem
      rcases List.mem_append.mp hmem with hm | hm
      · exact h2 hm
      · exact ih1 hm

lemma regressed_finalized_inv (s : co_poll_t) (now : Int) :
    ((regressedTimers s now).filter
        (fun te => te.id = ECO_POLL_DELETED_EVENT_ID)).filterMap finEntry
      = (s.timeEventHead.filter
          (fun te => te.id = ECO_POLL_DELETED_EVENT_ID)).filterMap finEntry := by
  unfold regressedTimers
  split_ifs
  · rw [List.filter_map, List.filterMap_map]
    rfl
  · rfl

/-- C4: for a timer id `t` issued by a create (`0 ≤ t`, present exactly
once in the list, every id below the counter — the reachable-state
facts): the first cancel succeeds; a second cancel with the same id
reports not-found; the fire callback is never invoked for `t` again, by
any sequence of later timer operations (creates, cancels, fire-alls,
sweeps); and on the next sweep pass — the one that visits the node —
the cancellation has added exactly one marked node, the sweep's
finalizer log contains exactly one entry per marked node (the node's
finalizer, if present, hence invoked exactly once), and the surviving
list is the per-node sweep transform in which every marked node has
been removed. -/
theorem cancel_timer_lifecycle (env : TimerCbEnv) (s : co_poll_t) (t : Int)
    (now : Int) (cur : Int × Int)
    (ht : 0 ≤ t)
    (hnext : ∀ te ∈ s.timeEventHead, te.id < s.timeEventNextId)
    (huniq : (s.timeEventHead.filter (fun te => te.id = t)).length = 1) :
    (eco_poll_time_event_delete s t).2 = true
    ∧ (eco_poll_time_event_delete (eco_poll_time_event_delete s t).1 t).2 = false
    ∧ (∀ ops : List TimerOp,
        t ∉ (runTimerOps env (eco_poll_time_event_delete s t).1 ops).2)
    ∧ ((eco_poll_time_event_delete s t).1.timeEventHead.filter
          (fun te => te.id = ECO_POLL_DELETED_EVENT_ID)).length
        = (s.timeEventHead.filter (fun te => te.id = ECO_POLL_DELETED_EVENT_ID)).length + 1
    ∧ (processTimeEvents env (eco_poll_time_event_delete s t).1 now cur).finalized
        = ((eco_poll_time_event_delete s t).1.timeEventHead.filter
            (fun te => te.id = ECO_POLL_DELETED_EVENT_ID)).filterMap finEntry
    ∧ (processTimeEvents env (eco_poll_time_event_delete s t).1 now cur).state.timeEventHead
        = (regressedTimers (eco_poll_time_event_delete s t).1 now).filterMap
            (sweepNode env ((eco_poll_time_event_delete s t).1.timeEventNextId - 1) cur) := by
  have htne : t ≠ ECO_POLL_DELETED_EVENT_ID := by
    unfold ECO_POLL_DELETED_EVENT_ID
    omega
  cases hdel : deleteGo t s.timeEventHead with
  | none =>
      exfalso
      have hall := (deleteGo_none_iff t s.timeEventHead).mp hdel
      have hnil : s.timeEventHead.filter (fun te => te.id = t) = [] := by
        apply List.filter_eq_nil_iff.mpr
        intro te hte
        simp [hall te hte]
      rw [hnil] at huniq
      simp at huniq
  | some l2 =>
      have hs1 : (eco_poll_time_event_delete s t).1 = { s with timeEventHead := l2 } := by
        simp only [eco_poll_time_event_delete, hdel]
      have hret : (eco_poll_time_event_delete s t).2 = true := by
        simp only [eco_poll_time_event_delete, hdel]
      obtain ⟨hcnt_t, hcnt_del⟩ := deleteGo_filter_counts t htne s.timeEventHead l2 hdel
      have hzero : (l2.filter (fun te => te.id = t)).length = 0 := by omega
      have hnot : ∀ te ∈ l2, te.id ≠ t := by
        intro te hte
        have hmem := List.filter_eq_nil_iff.mp (List.length_eq_zero.mp hzero) te hte
        simpa using hmem
      refine ⟨hret, ?_, ?_, ?_, ?_, ?_⟩
      · rw [hs1]
        have hnone2 : deleteGo t l2 = none := (deleteGo_none_iff t l2).mpr hnot
        simp only [eco_poll_time_event_delete, hnone2]
      · intro ops
        have hex : ∃ te ∈ s.timeEventHead, te.id = t := by
          cases hfe : s.timeEventHead.filter (fun te => te.id = t) with
          | nil => rw [hfe] at huniq; simp at huniq
          | cons a rest2 =>
              have ha := List.mem_filter.mp
                (show a ∈ s.timeEventHead.filter (fun te => te.id = t) from by
                  rw [hfe]; exact List.mem_cons_self a rest2)
              exact ⟨a, ha.1, by simpa using ha.2⟩
        have hno : NoTimerId t (eco_poll_time_event_delete s t).1 := by
          rw [hs1]
          refine ⟨hnot, ?_⟩
          rcases hex with ⟨te, hte, htid⟩
          have := hnext te hte
          show t < s.timeEventNextId
          omega
        exact (runTimerOps_no_fire env t htne ops _ hno).1
      · rw [hs1]
        exact hcnt_del
      · rw [processTimeEvents_finalized_eq, sweepGo_finalized_char,
          regressed_finalized_inv]
      · rw [processTimeEvents_state_head, sweepGo_timers_char]

/-- Witness for C4's theorem: cancelling id 0 (with finalizer token 6)
among two timers, then sweeping once at time (20s, 0ms). -/
theorem cancel_timer_lifecycle_witness :
    (eco_poll_time_event_delete
        { events := [], maxfd := -1, timeEventHead := [⟨1, 5, 0, 3, none, 8⟩, ⟨0, 9, 0, 4, some 6, 9⟩], timeEventNextId := 2, lastTime := 0 } 0).2 = true
    ∧ (eco_poll_time_event_delete (eco_poll_time_event_delete
        { events := [], maxfd := -1, timeEventHead := [⟨1, 5, 0, 3, none, 8⟩, ⟨0, 9, 0, 4, some 6, 9⟩], timeEventNextId := 2, lastTime := 0 } 0).1 0).2 = false
    ∧ 0 ∉ (runTimerOps (fun _ _ _ => 0) (eco_poll_time_event_delete
        { events := [], maxfd := -1, timeEventHead := [⟨1, 5, 0, 3, none, 8⟩, ⟨0, 9, 0, 4, some 6, 9⟩], timeEventNextId := 2, lastTime := 0 } 0).1
        [TimerOp.tsweep 20 (20, 0)]).2
    ∧ ((eco_poll_time_event_delete
        { events := [], maxfd := -1, timeEventHead := [⟨1, 5, 0, 3, none, 8⟩, ⟨0, 9, 0, 4, some 6, 9⟩], timeEventNextId := 2, lastTime := 0 } 0).1.timeEventHead.filter
          (fun te => te.id = ECO_POLL_DELETED_EVENT_ID)).length
        = (({ events := [], maxfd := -1, timeEventHead := [⟨1, 5, 0, 3, none, 8⟩, ⟨0, 9, 0, 4, some 6, 9⟩], timeEventNextId := 2, lastTime := 0 } : co_poll_t).timeEventHead.filter
            (fun te => te.id = ECO_POLL_DELETED_EVENT_ID)).length + 1
    ∧ (processTimeEvents (fun _ _ _ => 0) (eco_poll_time_event_delete
        { events := [], maxfd := -1, timeEventHead := [⟨1, 5, 0, 3, none, 8⟩, ⟨0, 9, 0, 4, some 6, 9⟩], timeEventNextId := 2, lastTime := 0 } 0).1 20 (20, 0)).finalized
        = ((eco_poll_time_event_delete
            { events := [], maxfd := -1, timeEventHead := [⟨1, 5, 0, 3, none, 8⟩, ⟨0, 9, 0, 4, some 6, 9⟩], timeEventNextId := 2, lastTime := 0 } 0).1.timeEventHead.filter
            (fun te => te.id = ECO_POLL_DELETED_EVENT_ID)).filterMap finEntry
    ∧ (processTimeEvents (fun _ _ _ => 0) (eco_poll_time_event_delete
        { events := [], maxfd := -1, timeEventHead := [⟨1, 5, 0, 3, none, 8⟩, ⟨0, 9, 0, 4, some 6, 9⟩], timeEventNextId := 2, lastTime := 0 } 0).1 20 (20, 0)).state.timeEventHead
        = (regressedTimers (eco_poll_time_event_delete
            { events := [], maxfd := -1, timeEventHead := [⟨1, 5, 0, 3, none, 8⟩, ⟨0, 9, 0, 4, some 6, 9⟩], timeEventNextId := 2, lastTime := 0 } 0).1 20).filterMap
            (sweepNode (fun _ _ _ => 0) ((eco_poll_time_event_delete
              { events := [], maxfd := -1, timeEventHead := [⟨1, 5, 0, 3, none, 8⟩, ⟨0, 9, 0, 4, some 6, 9⟩], timeEventNextId := 2, lastTime := 0 } 0).1.timeEventNextId - 1) (20, 0)) := by
  have h := cancel_timer_lifecycle (fun _ _ _ => 0)
    { events := [], maxfd := -1, timeEventHead := [⟨1, 5, 0, 3, none, 8⟩, ⟨0, 9, 0, 4, some 6, 9⟩], timeEventNextId := 2, lastTime := 0 } 0 20 (20, 0)
    (by decide) (by decide) (by decide)
  exact ⟨h.1, h.2.1, h.2.2.1 [TimerOp.tsweep 20 (20, 0)], h.2.2.2.1, h.2.2.2.2.1, h.2.2.2.2.2⟩

/-! ## C1: the `maxfd` invariant -/

lemma getD_out_of_range (evs : List coFileEvent) (j : Nat) (h : ¬ j < evs.length) :
    evs.getD j emptyFileEvent = emptyFileEvent := by
  simp [List.getD, List.getElem?_eq_none, Nat.le_of_not_lt h]

lemma backScan_spec (evs : List coFileEvent) :
    ∀ n : Nat,
      (∀ k, n ≤ k → k < evs.length → (evs.getD k emptyFileEvent).mask = ECO_POLL_NONE) →
      IsMaxMask evs (backScan evs n) := by
  intro n
  induction n with
  | zero =>
      intro hk
      constructor
      · exact Or.inl rfl
      · intro i hi hmask
        exact absurd (hk i (Nat.zero_le i) hi) hmask
  | succ j ih =>
      intro hk
      unfold backScan
      by_cases hj : (evs.getD j emptyFileEvent).mask ≠ ECO_POLL_NONE
      · rw [if_pos hj]
        have hjlen : j < evs.length := by
          by_contra hge
          exact hj (by rw [getD_out_of_range evs j hge]; rfl)
        constructor
        · exact Or.inr ⟨j, hjlen, rfl, hj⟩
        · intro i hi hmask
          by_cases hij : i ≤ j
          · exact_mod_cast hij
          · exact absurd (hk i (by omega) hi) hmask
      · rw [if_neg hj]
        apply ih
        intro k hkj hk2
        by_cases hkj2 : k = j
        · subst hkj2
          simpa using hj
        · exact hk k (by omega) hk2

lemma create_preserves_IsMaxMask (s : co_poll_t) (fd mask : Nat) (proc : Option Nat)
    (clientData : Nat) (apiOk : Bool) (hmask : mask ≠ ECO_POLL_NONE)
    (hs : IsMaxMask s.events s.maxfd) :
    IsMaxMask (eco_poll_file_event_create s fd mask proc clientData apiOk).1.events
      (eco_poll_file_event_create s fd mask proc clientData apiOk).1.maxfd := by
  by_cases hlen : fd < s.events.length
  case neg =>
    have hid : eco_poll_file_event_create s fd mask proc clientData apiOk = (s, false) := by
      unfold eco_poll_file_event_create
      rw [if_pos (Nat.le_of_not_lt hlen)]
    rw [hid]
    exact hs
  cases apiOk with
  | false =>
      rw [(register_backend_failure_leaves_state s fd mask proc clientData hlen).1]
      exact hs
  | true =>
      have hsm := create_slot_mask s fd mask proc clientData hlen
      have hmf := create_maxfd s fd mask proc clientData hlen
      have hl2 := create_events_length s fd mask proc clientData true
      obtain ⟨hex, hub⟩ := hs
      have hslotfd : ((eco_poll_file_event_create s fd mask proc clientData true).1.events.getD
          fd emptyFileEvent).mask = (getSlot s fd).mask ||| mask := hsm
      have hslotne : ∀ j, j ≠ fd →
          (eco_poll_file_event_create s fd mask proc clientData true).1.events.getD
              j emptyFileEvent
            = s.events.getD j emptyFileEvent :=
        fun j hj => create_slot_other s fd mask proc clientData true j hj
      constructor
      · right
        by_cases hgt : (fd : Int) > s.maxfd
        · refine ⟨fd, ?_, ?_, ?_⟩
          · rw [hl2]; exact hlen
          · rw [hmf, if_pos hgt]
          · rw [hslotfd]
            exact lor_ne_zero_right _ _ hmask
        · rcases hex with hneg | ⟨i0, hi0len, hi0eq, hi0mask⟩
          · exfalso
            rw [hneg] at hgt
            have : (0 : Int) ≤ (fd : Int) := Int.ofNat_nonneg fd
            omega
          · refine ⟨i0, by rw [hl2]; exact hi0len, by rw [hmf, if_neg hgt]; exact hi0eq, ?_⟩
            by_cases hif : i0 = fd
            · subst hif
              rw [hslotfd]
              exact lor_ne_zero_right _ _ hmask
            · rw [hslotne i0 hif]
              exact hi0mask
      · intro i hi hmask2
        rw [hl2] at hi
        by_cases hif : i = fd
        · rw [hif, hmf]
          split_ifs with hgt <;> omega
        · rw [hslotne i hif] at hmask2
          have := hub i hi hmask2
          rw [hmf]
          by_cases hgt : (fd : Int) > s.maxfd
          · rw [if_pos hgt]; omega
          · rw [if_neg hgt]; omega

lemma delete_preserves_IsMaxMask (s : co_poll_t) (fd mask : Nat)
    (hs : IsMaxMask s.events s.maxfd) :
    IsMaxMask (eco_poll_file_event_delete s fd mask).events
      (eco_poll_file_event_delete s fd mask).maxfd := by
  unfold eco_poll_file_event_delete
  by_cases hlen : fd ≥ s.events.length
  · rw [if_pos hlen]; exact hs
  rw [if_neg hlen]
  have hlen2 : fd < s.events.length := Nat.lt_of_not_le hlen
  dsimp only
  by_cases hmz : (getSlot s fd).mask = ECO_POLL_NONE
  · rw [if_pos hmz]; exact hs
  rw [if_neg hmz]
  by_cases hcond : (fd : Int) = s.maxfd ∧ landNot (getSlot s fd).mask mask = ECO_POLL_NONE
  · rw [if_pos hcond]
    apply backScan_spec
    intro k hk hk2
    have hk3 : k < s.events.length := by simpa using hk2
    by_cases hkfd : k = fd
    · rw [hkfd, getD_set_self _ _ _ _ hlen2]
      exact hcond.2
    · rw [getD_set_ne _ _ _ _ _ (Ne.symm hkfd)]
      by_contra hne
      have hle := hs.2 k hk3 hne
      rw [← hcond.1] at hle
      omega
  · rw [if_neg hcond]
    have hfdle : (fd : Int) ≤ s.maxfd := hs.2 fd hlen2 hmz
    obtain ⟨hex, hub⟩ := hs
    constructor
    · right
      rcases hex with hneg | ⟨i0, hi0len, hi0eq, hi0mask⟩
      · exfalso
        have : (0 : Int) ≤ (fd : Int) := Int.ofNat_nonneg fd
        omega
      · refine ⟨i0, by simpa using hi0len, hi0eq, ?_⟩
        by_cases hif : i0 = fd
        · rw [hif, getD_set_self _ _ _ _ hlen2]
          intro hz
          apply hcond
          exact ⟨by rw [← hif, hi0eq], hz⟩
        · rw [getD_set_ne _ _ _ _ _ (Ne.symm hif)]
          exact hi0mask
    · intro i hi hmask2
      have hi2 : i < s.events.length := by simpa using hi
      by_cases hif : i = fd
      · rw [hif]
        exact hfdle
      · rw [getD_set_ne _ _ _ _ _ (Ne.symm hif)] at hmask2
        exact hub i hi2 hmask2

lemma applyFileOp_preserves_IsMaxMask (s : co_poll_t) (op : FileOp)
    (hop : op.goodMask) (hs : IsMaxMask s.events s.maxfd) :
    IsMaxMask (applyFileOp s op).events (applyFileOp s op).maxfd := by
  cases op with
  | fcreate fd mask proc cd ok =>
      exact create_preserves_IsMaxMask s fd mask proc cd ok hop hs
  | fupdate fd mask proc cd ok =>
      have : applyFileOp s (.fupdate fd mask proc cd ok)
          = (eco_poll_file_event_create s fd mask proc cd ok).1 := by
        show (eco_poll_file_event_update s fd mask proc cd ok).1 = _
        rw [update_eq_create]
      rw [this]
      exact create_preserves_IsMaxMask s fd mask proc cd ok hop hs
  | fdelete fd mask =>
      exact delete_preserves_IsMaxMask s fd mask hs

/-- C1 (amended): starting from a freshly created loop, after any
sequence of register/update/unregister operations **whose register and
update masks are non-NONE**, `maxfd` is the largest descriptor index
whose slot mask is not `ECO_POLL_NONE`, or -1 when no slot has a
non-NONE mask; in particular no index greater than `maxfd` carries a
non-NONE mask (both facts are what `IsMaxMask` states). -/
theorem maxfd_tracks_interest (setsize : Nat) (now : Int) (ops : List FileOp)
    (hops : ∀ op ∈ ops, op.goodMask) :
    IsMaxMask (runFileOps (eco_poll_create setsize now) ops).events
      (runFileOps (eco_poll_create setsize now) ops).maxfd := by
  have main : ∀ ops2 : List FileOp, (∀ op ∈ ops2, op.goodMask) →
      ∀ s2 : co_poll_t, IsMaxMask s2.events s2.maxfd →
      IsMaxMask (runFileOps s2 ops2).events (runFileOps s2 ops2).maxfd := by
    intro ops2
    induction ops2 with
    | nil => intro _ s2 hs2; exact hs2
    | cons op rest ih =>
        intro hall s2 hs2
        unfold runFileOps
        exact ih (fun o ho => hall o (List.mem_cons_of_mem _ ho))
          (applyFileOp s2 op)
          (applyFileOp_preserves_IsMaxMask s2 op (hall op (List.mem_cons_self _ _)) hs2)
  apply main ops hops
  constructor
  · exact Or.inl rfl
  · intro i hi hm
    exfalso
    apply hm
    show ((List.replicate setsize { emptyFileEvent with mask := ECO_POLL_NONE }).getD
        i emptyFileEvent).mask = ECO_POLL_NONE
    have hi2 : i < setsize := by simpa [eco_poll_create] using hi
    simp [List.getD, List.getElem?_replicate, hi2]

/-- C1 counterexample: the claim fails as stated — registering with
mask `ECO_POLL_NONE` (backend accepting) on descriptor 0 of a fresh
1-slot loop leaves the slot's mask NONE yet raises `maxfd` to 0, so
`maxfd` is neither -1 nor an index with a non-NONE mask. -/
theorem maxfd_tracks_interest_counterexample :
    ¬ IsMaxMask
        (runFileOps (eco_poll_create 1 0)
          [FileOp.fcreate 0 ECO_POLL_NONE none 0 true]).events
        (runFileOps (eco_poll_create 1 0)
          [FileOp.fcreate 0 ECO_POLL_NONE none 0 true]).maxfd := by
  decide

/-- Witness for C1's amended theorem: a run with two successful
registrations, one backend-failed registration and one unregister. -/
theorem maxfd_tracks_interest_witness :
    IsMaxMask
      (runFileOps (eco_poll_create 3 0)
        [FileOp.fcreate 0 ECO_POLL_READABLE (some 1) 5 true,
         FileOp.fupdate 2 ECO_POLL_WRITABLE (some 2) 6 true,
         FileOp.fcreate 1 ECO_POLL_READABLE (some 3) 7 false,
         FileOp.fdelete 2 ECO_POLL_WRITABLE]).events
      (runFileOps (eco_poll_create 3 0)
        [FileOp.fcreate 0 ECO_POLL_READABLE (some 1) 5 true,
         FileOp.fupdate 2 ECO_POLL_WRITABLE (some 2) 6 true,
         FileOp.fcreate 1 ECO_POLL_READABLE (some 3) 7 false,
         FileOp.fdelete 2 ECO_POLL_WRITABLE]).maxfd :=
  maxfd_tracks_interest 3 0
    [FileOp.fcreate 0 ECO_POLL_READABLE (some 1) 5 true,
     FileOp.fupdate 2 ECO_POLL_WRITABLE (some 2) 6 true,
     FileOp.fcreate 1 ECO_POLL_READABLE (some 3) 7 false,
     FileOp.fdelete 2 ECO_POLL_WRITABLE]
    (by decide)
